import Mathlib

/-!
Verification of the dep2bazel core (src/dep2bazel/main.go): naming,
URL remapping, archive probing, repository resolution and rendering.

Go strings are modelled as `List Char`, byte buffers as `List Nat`
(each entry < 256).  The network and the archive decoders
(`http.Get`, `gzip.NewReader`, `tar.Reader`) are modelled as an explicit
environment record `NetEnv`; everything else is translated directly from
the source.
-/

/-- Go strings, modelled as lists of characters. -/
abbrev Str : Type := List Char

/-- A Go string literal. -/
def str (s : String) : Str := s.data

/-! ## SHA-256 (`crypto/sha256`, used via `sha256.Sum256` at main.go:118)

A direct executable implementation of FIPS 180-4 SHA-256 over byte
lists, with 32-bit words as `Nat` reduced modulo `2 ^ 32`. -/

/-- Truncate to a 32-bit word. -/
def w32 (n : Nat) : Nat := n % 4294967296

/-- Right rotation of a 32-bit word by `n` bits. -/
def rotr32 (n x : Nat) : Nat := w32 ((x >>> n) ||| (x <<< (32 - n)))

/-- SHA-256 choice function. -/
def ch32 (e f g : Nat) : Nat := (e &&& f) ^^^ ((4294967295 ^^^ e) &&& g)

/-- SHA-256 majority function. -/
def maj32 (a b c : Nat) : Nat := (a &&& b) ^^^ (a &&& c) ^^^ (b &&& c)

/-- SHA-256 Σ₀. -/
def bigSigma0 (x : Nat) : Nat := rotr32 2 x ^^^ rotr32 13 x ^^^ rotr32 22 x

/-- SHA-256 Σ₁. -/
def bigSigma1 (x : Nat) : Nat := rotr32 6 x ^^^ rotr32 11 x ^^^ rotr32 25 x

/-- SHA-256 σ₀. -/
def smallSigma0 (x : Nat) : Nat := rotr32 7 x ^^^ rotr32 18 x ^^^ (x >>> 3)

/-- SHA-256 σ₁. -/
def smallSigma1 (x : Nat) : Nat := rotr32 17 x ^^^ rotr32 19 x ^^^ (x >>> 10)

/-- The 64 SHA-256 round constants, in decimal. -/
def sha256K : List Nat :=
  [1116352408, 1899447441, 3049323471, 3921009573, 961987163, 1508970993,
   2453635748, 2870763221, 3624381080, 310598401, 607225278, 1426881987,
   1925078388, 2162078206, 2614888103, 3248222580, 3835390401, 4022224774,
   264347078, 604807628, 770255983, 1249150122, 1555081692, 1996064986,
   2554220882, 2821834349, 2952996808, 3210313671, 3336571891, 3584528711,
   113926993, 338241895, 666307205, 773529912, 1294757372, 1396182291,
   1695183700, 1986661051, 2177026350, 2456956037, 2730485921, 2820302411,
   3259730800, 3345764771, 3516065817, 3600352804, 4094571909, 275423344,
   430227734, 506948616, 659060556, 883997877, 958139571, 1322822218,
   1537002063, 1747873779, 1955562222, 2024104815, 2227730452, 2361852424,
   2428436474, 2756734187, 3204031479, 3329325298]

/-- The SHA-256 initial hash value, in decimal. -/
def sha256H0 : List Nat :=
  [1779033703, 3144134277, 1013904242, 2773480762,
   1359893119, 2600822924, 528734635, 1541459225]

/-- Extend 16 message-schedule words to 64. -/
def sha256Extend (w : List Nat) : List Nat :=
  (List.range 48).foldl
    (fun acc _ =>
      let n := acc.length
      acc ++ [w32 (smallSigma1 (acc.getD (n - 2) 0) + acc.getD (n - 7) 0 +
                   smallSigma0 (acc.getD (n - 15) 0) + acc.getD (n - 16) 0)])
    w

/-- One SHA-256 round on the state `[a, b, c, d, e, f, g, h]`. -/
def sha256Round (st : List Nat) (k w : Nat) : List Nat :=
  match st with
  | [a, b, c, d, e, f, g, h] =>
    let t1 := w32 (h + bigSigma1 e + ch32 e f g + k + w)
    let t2 := w32 (bigSigma0 a + maj32 a b c)
    [w32 (t1 + t2), a, b, c, w32 (d + t1), e, f, g]
  | other => other

/-- Compress one 16-word block into the running hash. -/
def sha256Compress (h : List Nat) (block : List Nat) : List Nat :=
  let w := sha256Extend block
  let final := (sha256K.zip w).foldl (fun st kw => sha256Round st kw.1 kw.2) h
  (h.zip final).map fun p => w32 (p.1 + p.2)

/-- The eight big-endian bytes of a 64-bit length field. -/
def natToBytesBE8 (n : Nat) : List Nat :=
  [(n >>> 56) % 256, (n >>> 48) % 256, (n >>> 40) % 256, (n >>> 32) % 256,
   (n >>> 24) % 256, (n >>> 16) % 256, (n >>> 8) % 256, n % 256]

/-- SHA-256 padding: a 0x80 byte, zeros to 56 mod 64, and the bit length. -/
def sha256Pad (msg : List Nat) : List Nat :=
  msg ++ [0x80] ++ List.replicate ((119 - msg.length % 64) % 64) 0
      ++ natToBytesBE8 (8 * msg.length)

/-- Big-endian 32-bit words from a byte list (length a multiple of 4). -/
def bytesToWordsBE : List Nat → List Nat
  | b0 :: b1 :: b2 :: b3 :: rest =>
    (((b0 * 256 + b1) * 256 + b2) * 256 + b3) :: bytesToWordsBE rest
  | _ => []

/-- Split a word list into 16-word blocks (length a multiple of 16). -/
def chunk16 : List Nat → List (List Nat)
  | w0 :: w1 :: w2 :: w3 :: w4 :: w5 :: w6 :: w7 ::
    w8 :: w9 :: w10 :: w11 :: w12 :: w13 :: w14 :: w15 :: rest =>
    [w0, w1, w2, w3, w4, w5, w6, w7, w8, w9, w10, w11, w12, w13, w14, w15] :: chunk16 rest
  | _ => []

/-- The eight 32-bit words of the SHA-256 digest of a byte list. -/
def sha256Words (msg : List Nat) : List Nat :=
  (chunk16 (bytesToWordsBE (sha256Pad msg))).foldl
    (fun h block => sha256Compress h block) sha256H0

/-- A lowercase hexadecimal digit. -/
def hexDigit (n : Nat) : Char :=
  if n < 10 then Char.ofNat (48 + n) else Char.ofNat (87 + n)

/-- Eight lowercase hex digits of one 32-bit word. -/
def word32Hex (n : Nat) : Str :=
  [hexDigit ((n >>> 28) % 16), hexDigit ((n >>> 24) % 16),
   hexDigit ((n >>> 20) % 16), hexDigit ((n >>> 16) % 16),
   hexDigit ((n >>> 12) % 16), hexDigit ((n >>> 8) % 16),
   hexDigit ((n >>> 4) % 16), hexDigit (n % 16)]

/-- Lowercase hex SHA-256 digest of a byte list: the model of
`fmt.Sprintf("%x", sha256.Sum256(b))` at main.go:118. -/
def sha256Hex (msg : List Nat) : Str :=
  (sha256Words msg).foldr (fun w acc => word32Hex w ++ acc) []

/-! ## Regular expressions (`regexp`, used for the two gopkg.in patterns)

A small backtracking matcher with capture groups and Go's leftmost-first
(PCRE-style) preference order: alternation prefers its left branch, a
star is greedy.  Fuel bounds the recursion depth; `reFuel` is far larger
than any depth the two anchored gopkg.in patterns can reach on a given
input. -/

/-- Regular expressions: empty word, a character class, concatenation,
alternation, Kleene star and a numbered capture group. -/
inductive RE where
  | eps : RE
  | cls : (Char → Bool) → RE
  | cat : RE → RE → RE
  | alt : RE → RE → RE
  | star : RE → RE
  | group : Nat → RE → RE

/-- Backtracking matcher in continuation-passing style.  `caps` collects
`(group index, captured text)` pairs along the successful path; the
continuation receives the rest of the input.  Alternation tries the left
branch first and a star matches greedily (iterating only while the body
consumed input), which is Go's leftmost-first submatch semantics. -/
def reM : Nat → RE → Str → List (Nat × Str) →
    (Str → List (Nat × Str) → Option (List (Nat × Str))) → Option (List (Nat × Str))
  | 0, _, _, _, _ => none
  | _ + 1, .eps, s, caps, k => k s caps
  | _ + 1, .cls p, s, caps, k =>
    match s with
    | [] => none
    | c :: rest => if p c then k rest caps else none
  | fl + 1, .cat r1 r2, s, caps, k =>
    reM fl r1 s caps (fun s1 caps1 => reM fl r2 s1 caps1 k)
  | fl + 1, .alt r1 r2, s, caps, k =>
    match reM fl r1 s caps k with
    | some res => some res
    | none => reM fl r2 s caps k
  | fl + 1, .star r, s, caps, k =>
    match reM fl r s caps (fun s1 caps1 =>
        if s1.length < s.length then reM fl (.star r) s1 caps1 k else none) with
    | some res => some res
    | none => k s caps
  | fl + 1, .group i r, s, caps, k =>
    reM fl r s caps (fun s1 caps1 => k s1 (caps1 ++ [(i, s.take (s.length - s1.length))]))

/-- A single literal character. -/
def chr (c : Char) : RE := .cls (fun x => x == c)

/-- A literal string. -/
def relit (l : Str) : RE := l.foldr (fun c acc => .cat (chr c) acc) .eps

/-- `r?`: optional, preferring to match (Go's greedy `?`). -/
def reopt (r : RE) : RE := .alt r .eps

/-- `r+`. -/
def replus (r : RE) : RE := .cat r (.star r)

/-- `r{0,2}`. -/
def rep02 (r : RE) : RE := reopt (.cat r (reopt r))

/-- Fuel that dominates the matcher's recursion depth on input `s`. -/
def reFuel (s : Str) : Nat := 1000 + 1000 * s.length

/-- The model of `regexp.FindStringSubmatch` for a pattern anchored by
`^` and `$`: match the whole input, returning the captures on success. -/
def findSubmatch (re : RE) (s : Str) : Option (List (Nat × Str)) :=
  reM (reFuel s) re s [] (fun s1 caps => if s1.isEmpty then some caps else none)

/-- The text of capture group `i` (the last capture wins, and a group
that did not participate reads as the empty string, as in Go). -/
def capGet (caps : List (Nat × Str)) (i : Nat) : Str :=
  match caps.reverse.find? (fun p => p.1 == i) with
  | some p => p.2
  | none => []

/-- `[0-9]`. -/
def isDigit09 (c : Char) : Bool := 48 ≤ c.toNat && c.toNat ≤ 57

/-- `[1-9]`. -/
def isDigit19 (c : Char) : Bool := 49 ≤ c.toNat && c.toNat ≤ 57

/-- `[a-z]`. -/
def isLowerAZ (c : Char) : Bool := 97 ≤ c.toNat && c.toNat ≤ 122

/-- `[A-Z]`. -/
def isUpperAZ (c : Char) : Bool := 65 ≤ c.toNat && c.toNat ≤ 90

/-- `[a-zA-Z]`. -/
def isAlpha (c : Char) : Bool := isLowerAZ c || isUpperAZ c

/-- `[a-zA-Z0-9]`. -/
def isAlnum (c : Char) : Bool := isAlpha c || isDigit09 c

/-- `[-a-zA-Z0-9]`. -/
def isHyphenAlnum (c : Char) : Bool := c == '-' || isAlnum c

/-- `[-.a-zA-Z0-9]`. -/
def isDotHyphenAlnum (c : Char) : Bool := c == '-' || c == '.' || isAlnum c

/-- `[a-z0-9]`. -/
def isLowerDigit (c : Char) : Bool := isLowerAZ c || isDigit09 c

/-- `[-a-z0-9]`. -/
def isHyphenLowerDigit (c : Char) : Bool := c == '-' || isLowerDigit c

/-- `(?:v0|v[1-9][0-9]*)(?:\.0|\.[1-9][0-9]*){0,2}(?:-unstable)?`, the
version-tag subpattern shared by both gopkg.in patterns. -/
def versionRE : RE :=
  .cat (.alt (relit (str "v0")) (.cat (chr 'v') (.cat (.cls isDigit19) (.star (.cls isDigit09)))))
    (.cat (rep02 (.alt (relit (str ".0")) (.cat (chr '.') (.cat (.cls isDigit19) (.star (.cls isDigit09))))))
      (reopt (relit (str "-unstable"))))

/-- `gopkgInPatternOld` (main.go:137):
`^/(?:([a-z0-9][-a-z0-9]+)/)?((?:v0|v[1-9][0-9]*)(?:\.0|\.[1-9][0-9]*){0,2}(?:-unstable)?)/([a-zA-Z][-a-zA-Z0-9]*)(?:\.git)?((?:/[a-zA-Z][-a-zA-Z0-9]*)*)$`
with group 1 the user, group 2 the version, group 3 the name and group 4
the trailing subpath. -/
def gopkgInPatternOld : RE :=
  .cat (chr '/')
    (.cat (reopt (.cat (.group 1 (.cat (.cls isLowerDigit) (replus (.cls isHyphenLowerDigit)))) (chr '/')))
      (.cat (.group 2 versionRE)
        (.cat (chr '/')
          (.cat (.group 3 (.cat (.cls isAlpha) (.star (.cls isHyphenAlnum))))
            (.cat (reopt (relit (str ".git")))
              (.group 4 (.star (.cat (chr '/') (.cat (.cls isAlpha) (.star (.cls isHyphenAlnum)))))))))))

/-- `gopkgInPatternNew` (main.go:138):
`^/(?:([a-zA-Z0-9][-a-zA-Z0-9]+)/)?([a-zA-Z][-.a-zA-Z0-9]*)\.((?:v0|v[1-9][0-9]*)(?:\.0|\.[1-9][0-9]*){0,2}(?:-unstable)?)(?:\.git)?((?:/[a-zA-Z0-9][-.a-zA-Z0-9]*)*)$`
with group 1 the user, group 2 the name, group 3 the version and group 4
the trailing subpath. -/
def gopkgInPatternNew : RE :=
  .cat (chr '/')
    (.cat (reopt (.cat (.group 1 (.cat (.cls isAlnum) (replus (.cls isHyphenAlnum)))) (chr '/')))
      (.cat (.group 2 (.cat (.cls isAlpha) (.star (.cls isDotHyphenAlnum))))
        (.cat (chr '.')
          (.cat (.group 3 versionRE)
            (.cat (reopt (relit (str ".git")))
              (.group 4 (.star (.cat (chr '/') (.cat (.cls isAlnum) (.star (.cls isDotHyphenAlnum)))))))))))

/-! ## URL remapping (`remapURL`, main.go:142-169) -/

/-- The file component of Go's `path.Split`: everything after the final
slash. -/
def pathSplitFile (s : Str) : Str := (s.reverse.takeWhile (fun c => !(c == '/'))).reverse

/-- The canonical github URL built from `(repoUser, repoName)`
(main.go:156-161): `https://github.com/<user>/<name>` when a user was
captured, else `https://github.com/go-<name>/<name>`. -/
def githubFromUserName (repoUser repoName : Str) : Str :=
  if repoUser.isEmpty then
    str "https://github.com/go-" ++ repoName ++ str "/" ++ repoName
  else
    str "https://github.com/" ++ repoUser ++ str "/" ++ repoName

/-- `remapURL` (main.go:142): rewrite gopkg.in URLs (new-style pattern
first, then the legacy pattern with name and version swapped) and
go.googlesource.com URLs to github URLs; return anything else unchanged. -/
def remapURL (url : Str) : Str :=
  if (str "https://gopkg.in/").isPrefixOf url then
    let tail := url.drop (str "https://gopkg.in").length
    match findSubmatch gopkgInPatternNew tail with
    | some m => githubFromUserName (capGet m 1) (capGet m 2)
    | none =>
      match findSubmatch gopkgInPatternOld tail with
      | some m =>
        -- the source swaps m[2] and m[3] ("/v2/name" <= "/name.v2"), so the
        -- repo name of the legacy pattern is capture group 3
        githubFromUserName (capGet m 1) (capGet m 3)
      | none => url
  else if (str "https://go.googlesource.com/").isPrefixOf url then
    str "https://github.com/golang/" ++ pathSplitFile url
  else
    url

/-! ## Naming (`bazelName`, main.go:63-73) -/

/-- Go's `strings.Split` for a one-character separator: `[""]` on the
empty string, and the separator never appears in any piece. -/
def splitOnChar (sep : Char) : Str → List Str
  | [] => [[]]
  | c :: rest =>
    match splitOnChar sep rest with
    | [] => if c == sep then [[], []] else [[c]]
    | s :: ss => if c == sep then [] :: s :: ss else (c :: s) :: ss

/-- Go's `strings.Join` for a one-character separator. -/
def joinWithChar (sep : Char) : List Str → Str
  | [] => []
  | [s] => s
  | s :: rest => s ++ sep :: joinWithChar sep rest

/-- `bazelName` (main.go:63): split the import path on `/`, split the
first segment on `.`, reverse the host labels (the Go loop walks
`hostparts` from the last index down), append the remaining path
segments, join with `_`, then replace every `-` and `.` with `_`
(`strings.NewReplacer("-", "_", ".", "_")`, a per-character replacement
since every pattern is a single character). -/
def bazelName (importpath : Str) : Str :=
  let parts := splitOnChar '/' importpath
  let hostparts := splitOnChar '.' (parts.headD [])
  let slice := hostparts.reverse ++ parts.tail
  let name := joinWithChar '_' slice
  name.map (fun c => if c == '-' || c == '.' then '_' else c)

/-- The claim's reference algorithm for `Name`, following the spec's
words in §4.1: split `importPath` on `/`; split the first segment on
`.`; reverse those host labels; append the remaining path segments; join
all with `_`; then replace every `-` and `.` with `_`. -/
def nameRef (importPath : Str) : Str :=
  let segments := splitOnChar '/' importPath
  let hostLabels := splitOnChar '.' (segments.headD [])
  let joined := joinWithChar '_' (hostLabels.reverse ++ segments.tail)
  joined.map (fun c => if c == '-' || c == '.' then '_' else c)

/-! ## Repository descriptors and the probing environment -/

/-- `RemoteTarball` (main.go:37): a tarball-backed repository
descriptor. -/
structure RemoteTarball where
  url : Str
  stripPrefix : Str
  sha256 : Str
deriving DecidableEq

/-- `RemoteGitRepo` (main.go:43): a VCS-backed repository descriptor. -/
structure RemoteGitRepo where
  revision : Str
deriving DecidableEq

/-- The `RemoteRepository` interface (main.go:47) as a tagged sum of its
two implementations. -/
inductive RemoteRepository where
  | tarball : RemoteTarball → RemoteRepository
  | gitRepo : RemoteGitRepo → RemoteRepository
deriving DecidableEq

/-- The error taxonomy of the probing layer.  In the source every error
is a plain `error` value; these constructors name the three producers:
a failed `http.Get`/`io.Copy` (main.go:51-60), a failed
`gzip.NewReader`/`tar.Reader.Next` or a too-short archive
(main.go:100-114), and the unknown-server error (main.go:177). -/
inductive ProbeError where
  | fetchError : ProbeError
  | archiveFormatError : ProbeError
  | unsupportedHost : ProbeError
deriving DecidableEq

/-- The model of the outside world a probe touches: `httpGet url` is the
downloaded byte buffer of `downloadFile` (`none` when the request
fails), `gunzip` the decompressed stream of `gzip.NewReader` (`none`
when decompression fails), and `tarEntryNames` the entry names
`tar.Reader.Next` yields in order (truncated where the stream ends or
turns malformed).  The temporary file of main.go:78-96 only carries the
downloaded bytes from the fetch to the reader and is not modelled. -/
structure NetEnv where
  httpGet : Str → Option (List Nat)
  gunzip : List Nat → Option (List Nat)
  tarEntryNames : List Nat → List Str

/-- The download URL of a github-style probe (main.go:77 and :85):
`<url>/archive/<revision>.tar.gz`. -/
def githubDownloadURL (url revision : Str) : Str :=
  let tarball := revision ++ str ".tar.gz"
  url ++ str "/archive/" ++ tarball

/-- `githubTarball` (main.go:75): download `<url>/archive/<revision>.tar.gz`,
take the name of the second tar entry as the strip prefix, and hash the
downloaded bytes. -/
def githubTarball (env : NetEnv) (url revision : Str) : Except ProbeError RemoteTarball :=
  let downloadURL := githubDownloadURL url revision
  match env.httpGet downloadURL with
  | none => .error .fetchError
  | some b =>
    match env.gunzip b with
    | none => .error .archiveFormatError
    | some content =>
      match env.tarEntryNames content with
      | _first :: second :: _rest =>
        .ok { url := downloadURL, stripPrefix := second, sha256 := sha256Hex b }
      | _ => .error .archiveFormatError

/-- `googlesourceTarball` (main.go:127): construct
`<url>/+archive/<revision>.tar.gz` without downloading anything; the
checksum is left empty because go.googlesource.com archives are not
byte-for-byte reproducible. -/
def googlesourceTarball (url revision : Str) : Except ProbeError RemoteTarball :=
  .ok { url := url ++ str "/+archive/" ++ revision ++ str ".tar.gz",
        stripPrefix := [], sha256 := [] }

/-- `tryTarball` (main.go:171): dispatch on the host prefix, failing with
the unknown-server error for any other host. -/
def tryTarball (env : NetEnv) (url revision : Str) : Except ProbeError RemoteTarball :=
  if (str "https://github.com/").isPrefixOf url then
    githubTarball env url revision
  else if (str "https://go.googlesource.com/").isPrefixOf url then
    googlesourceTarball url revision
  else
    .error .unsupportedHost

/-- `remoteRepository` (main.go:209): probe the remapped URL, then the
original URL, then fall back to a git checkout of the revision.  The
source's error result is always `nil`; the `Except` layer records
that no input reaches `.error`. -/
def remoteRepository (env : NetEnv) (url _importName revision : Str) :
    Except ProbeError RemoteRepository :=
  let remappedURL := remapURL url
  match tryTarball env remappedURL revision with
  | .ok tarball => .ok (.tarball tarball)
  | .error _ =>
    match tryTarball env url revision with
    | .ok tarball => .ok (.tarball tarball)
    | .error _ => .ok (.gitRepo { revision := revision })

/-! ## Rendering (`GetRepoString`, main.go:182-207) -/

/-- `RemoteTarball.GetRepoString` (main.go:182), line by line. -/
def RemoteTarball.GetRepoString (t : RemoteTarball) (name importPath : Str) : Str :=
  str "\n"
  ++ str "    go_repository(\n"
  ++ (str "        name = \"" ++ name ++ str "\",\n")
  ++ (str "        importpath = \"" ++ importPath ++ str "\",\n")
  ++ (str "        urls = [\"" ++ t.url ++ str "\"],\n")
  ++ (str "        strip_prefix = \"" ++ t.stripPrefix ++ str "\",\n")
  ++ (if t.sha256 ≠ [] then str "        sha256 = \"" ++ t.sha256 ++ str "\",\n" else [])
  ++ str "        build_file_proto_mode = \"disable\",\n"
  ++ str "    )\n"

/-- `RemoteGitRepo.GetRepoString` (main.go:198), line by line. -/
def RemoteGitRepo.GetRepoString (t : RemoteGitRepo) (name importPath : Str) : Str :=
  str "\n"
  ++ str "    go_repository(\n"
  ++ (str "        name = \"" ++ name ++ str "\",\n")
  ++ (str "        importpath = \"" ++ importPath ++ str "\",\n")
  ++ (str "        commit = \"" ++ t.revision ++ str "\",\n")
  ++ str "        build_file_proto_mode = \"disable\",\n"
  ++ str "    )\n"

/-- The interface dispatch of `RemoteRepository.GetRepoString`. -/
def RemoteRepository.GetRepoString : RemoteRepository → Str → Str → Str
  | .tarball t, name, importPath => t.GetRepoString name importPath
  | .gitRepo g, name, importPath => g.GetRepoString name importPath

/-! The rendering contract of spec §4.5/§6, as a field list: a block is
the fixed header, the field lines in order, and the fixed footer. -/

/-- A quoted field line, `        <key> = "<value>",`. -/
def quotedField (key value : Str) : Str :=
  str "        " ++ key ++ str " = \"" ++ value ++ str "\",\n"

/-- A single-element-list field line, `        <key> = ["<value>"],`. -/
def listField (key value : Str) : Str :=
  str "        " ++ key ++ str " = [\"" ++ value ++ str "\"],\n"

/-- The field lines of a tarball-backed block in the spec's order:
name, importpath, urls (single-element list), strip_prefix, sha256
exactly when the checksum is non-empty, then the fixed
disabled-proto-mode flag. -/
def tarballFieldLines (t : RemoteTarball) (name importPath : Str) : List Str :=
  [quotedField (str "name") name,
   quotedField (str "importpath") importPath,
   listField (str "urls") t.url,
   quotedField (str "strip_prefix") t.stripPrefix]
  ++ (if t.sha256 ≠ [] then [quotedField (str "sha256") t.sha256] else [])
  ++ [quotedField (str "build_file_proto_mode") (str "disable")]

/-- The field lines of a VCS-backed block in the spec's order:
name, importpath, commit (the stored revision), then the fixed flag —
and no urls, strip_prefix or sha256 field. -/
def vcsFieldLines (g : RemoteGitRepo) (name importPath : Str) : List Str :=
  [quotedField (str "name") name,
   quotedField (str "importpath") importPath,
   quotedField (str "commit") g.revision,
   quotedField (str "build_file_proto_mode") (str "disable")]

/-- A rule block from its field lines. -/
def renderBlock (fields : List Str) : Str :=
  str "\n    go_repository(\n" ++ fields.foldr (fun x acc => x ++ acc) [] ++ str "    )\n"

/-! ## Helper environments and prefix facts -/

/-- An environment where every fetch and every decode fails. -/
def envFail : NetEnv :=
  { httpGet := fun _ => none, gunzip := fun _ => none, tarEntryNames := fun _ => [] }

/-- An environment where the fetch returns the bytes 97, 98, 99 and the
decompressed archive lists two entries. -/
def envGhOk : NetEnv :=
  { httpGet := fun _ => some [97, 98, 99],
    gunzip := fun _ => some [],
    tarEntryNames := fun _ => [str "errors-abc123", str "errors-abc123/sub"] }

/-- FIPS 180-4 test vector: the digest of the empty message, validating the
SHA-256 implementation against the reference value. -/
theorem sha256Hex_empty :
    sha256Hex [] = str "e3b0c44298fc1c149afbf4c8996fb92427ae41e4649b934ca495991b7852b855" := by
  decide

/-- FIPS 180-4 test vector: the digest of "abc" (bytes 97, 98, 99). -/
theorem sha256Hex_abc :
    sha256Hex [97, 98, 99] =
      str "ba7816bf8f01cfea414140de5dae2223b00361a396177a9cb410ff61f20015ad" := by
  decide

/-- `https://github.com/…` never carries the gopkg.in prefix (the two
literals differ at index 9). -/
theorem gopkg_not_pre_gh (rest : Str) :
    (str "https://gopkg.in/").isPrefixOf (str "https://github.com/" ++ rest) = false := rfl

/-- `https://github.com/…` never carries the go.googlesource.com prefix. -/
theorem gs_not_pre_gh (rest : Str) :
    (str "https://go.googlesource.com/").isPrefixOf (str "https://github.com/" ++ rest) = false := rfl

/-- `https://go.googlesource.com/…` never carries the github prefix. -/
theorem gh_not_pre_gs (rest : Str) :
    (str "https://github.com/").isPrefixOf (str "https://go.googlesource.com/" ++ rest) = false := rfl

/-- A list is a Boolean prefix of any extension of itself. -/
theorem isPrefixOf_append_self (l rest : Str) : l.isPrefixOf (l ++ rest) = true := by
  rw [List.isPrefixOf_iff_prefix]
  exact List.prefix_append l rest

/-- Splitting the `go-` convention literal. -/
theorem gh_go_split : str "https://github.com/go-" = str "https://github.com/" ++ str "go-" := by decide

/-- Splitting the `golang` organization literal. -/
theorem gh_golang_split :
    str "https://github.com/golang/" = str "https://github.com/" ++ str "golang/" := by decide

/-- Every URL `githubFromUserName` synthesizes extends
`https://github.com/`. -/
theorem githubFromUserName_shape (user name : Str) :
    ∃ rest, githubFromUserName user name = str "https://github.com/" ++ rest := by
  unfold githubFromUserName
  by_cases h : user.isEmpty
  · refine ⟨str "go-" ++ (name ++ (str "/" ++ name)), ?_⟩
    rw [if_pos h, gh_go_split]
    simp [List.append_assoc]
  · refine ⟨user ++ (str "/" ++ name), ?_⟩
    rw [if_neg h]
    simp [List.append_assoc]

/-- `remapURL` leaves a URL that extends `https://github.com/`
unchanged: such a URL matches neither rewrite rule. -/
theorem remapURL_gh_fixed (rest : Str) :
    remapURL (str "https://github.com/" ++ rest) = str "https://github.com/" ++ rest := by
  simp [remapURL, gopkg_not_pre_gh, gs_not_pre_gh]

/-- Every `remapURL` result is the input itself or an extension of
`https://github.com/`. -/
theorem remapURL_shape (url : Str) :
    remapURL url = url ∨ ∃ rest, remapURL url = str "https://github.com/" ++ rest := by
  by_cases h1 : (str "https://gopkg.in/").isPrefixOf url
  · cases hm : findSubmatch gopkgInPatternNew (url.drop (str "https://gopkg.in").length) with
    | some m =>
      right
      obtain ⟨rest, hrest⟩ := githubFromUserName_shape (capGet m 1) (capGet m 2)
      exact ⟨rest, by rw [remapURL, if_pos h1]; simp only [hm]; exact hrest⟩
    | none =>
      cases ho : findSubmatch gopkgInPatternOld (url.drop (str "https://gopkg.in").length) with
      | some m =>
        right
        obtain ⟨rest, hrest⟩ := githubFromUserName_shape (capGet m 1) (capGet m 3)
        exact ⟨rest, by rw [remapURL, if_pos h1]; simp only [hm, ho]; exact hrest⟩
      | none =>
        left
        rw [remapURL, if_pos h1]; simp only [hm, ho]
  · by_cases h2 : (str "https://go.googlesource.com/").isPrefixOf url
    · right
      exact ⟨str "golang/" ++ pathSplitFile url,
        by rw [remapURL, if_neg ?_, if_pos h2, gh_golang_split, List.append_assoc]
           simp [h1]⟩
    · left
      rw [remapURL, if_neg ?_, if_neg ?_] <;> simp [h1, h2]

/-! ## The claims -/

/-- C3: the three remapping equalities of the spec hold: the new-style
gopkg.in pattern without a user maps through the `go-<name>/<name>`
convention, the new-style pattern with a user keeps the user, and a
go.googlesource.com URL maps its last path segment into the golang
organization. -/
theorem remapURL_examples :
    remapURL (str "https://gopkg.in/yaml.v2") = str "https://github.com/go-yaml/yaml" ∧
    remapURL (str "https://gopkg.in/fsnotify/fsnotify.v1") =
      str "https://github.com/fsnotify/fsnotify" ∧
    remapURL (str "https://go.googlesource.com/net") = str "https://github.com/golang/net" := by
  refine ⟨by decide, by decide, by decide⟩

/-- C4: `bazelName` coincides with the spec's reference algorithm
(split on `/`, split the host on `.`, reverse the host labels, append
the path segments, join with `_`, replace `-` and `.` by `_`) on
every import path; in particular it maps `github.com/scele/dep2bazel` to
`com_github_scele_dep2bazel`, and repeated calls agree. -/
theorem bazelName_matches_reference :
    (∀ importPath : Str, bazelName importPath = nameRef importPath) ∧
    bazelName (str "github.com/scele/dep2bazel") = str "com_github_scele_dep2bazel" ∧
    (∀ importPath : Str, bazelName importPath = bazelName importPath) :=
  ⟨fun _ => rfl, by decide, fun _ => rfl⟩

/-- C9: `remapURL` never fails: a URL carrying neither host prefix is
returned unchanged, and a gopkg.in URL whose tail matches neither the
new-style nor the legacy pattern is returned unchanged as well. -/
theorem remapURL_no_rule_unchanged (url : Str) :
    ((str "https://gopkg.in/").isPrefixOf url = false →
      (str "https://go.googlesource.com/").isPrefixOf url = false →
      remapURL url = url) ∧
    ((str "https://gopkg.in/").isPrefixOf url = true →
      findSubmatch gopkgInPatternNew (url.drop (str "https://gopkg.in").length) = none →
      findSubmatch gopkgInPatternOld (url.drop (str "https://gopkg.in").length) = none →
      remapURL url = url) := by
  constructor
  · intro h1 h2; simp [remapURL, h1, h2]
  · intro h1 h2 h3; simp [remapURL, h1, h2, h3]

/-- C10: `remapURL` is idempotent on every input: every rewritten result
extends `https://github.com/`, which matches neither rewrite rule, and a
non-rewritten input is returned unchanged. -/
theorem remapURL_idempotent (url : Str) :
    remapURL (remapURL url) = remapURL url := by
  rcases remapURL_shape url with h | ⟨rest, h⟩
  · rw [h]; exact h
  · rw [h]; exact remapURL_gh_fixed rest

/-- C1: `remoteRepository` resolves every `(sourceURL, revision)` pair in
every environment: it returns some descriptor (never an error), namely
the remapped-URL tarball when that probe succeeds, otherwise the
original-URL tarball when that probe succeeds, otherwise a VCS
descriptor carrying exactly the input revision. -/
theorem remoteRepository_total (env : NetEnv) (url importName revision : Str) :
    (∃ r, remoteRepository env url importName revision = .ok r) ∧
    (∀ t, tryTarball env (remapURL url) revision = .ok t →
      remoteRepository env url importName revision = .ok (.tarball t)) ∧
    (∀ e t, tryTarball env (remapURL url) revision = .error e →
      tryTarball env url revision = .ok t →
      remoteRepository env url importName revision = .ok (.tarball t)) ∧
    (∀ e e', tryTarball env (remapURL url) revision = .error e →
      tryTarball env url revision = .error e' →
      remoteRepository env url importName revision = .ok (.gitRepo ⟨revision⟩)) := by
  refine ⟨?_, fun t h1 => by simp [remoteRepository, h1],
    fun e t h1 h2 => by simp [remoteRepository, h1, h2],
    fun e e' h1 h2 => by simp [remoteRepository, h1, h2]⟩
  cases h1 : tryTarball env (remapURL url) revision with
  | ok t => exact ⟨.tarball t, by simp [remoteRepository, h1]⟩
  | error e =>
    cases h2 : tryTarball env url revision with
    | ok t => exact ⟨.tarball t, by simp [remoteRepository, h1, h2]⟩
    | error e' => exact ⟨.gitRepo ⟨revision⟩, by simp [remoteRepository, h1, h2]⟩

/-- C2: a successful github-style probe returns the archive URL
`<hostURL>/archive/<revision>.tar.gz`, the name of the second entry of
the decompressed tar stream as the strip prefix, and the lowercase hex
SHA-256 digest of the downloaded byte sequence as the checksum. -/
theorem tryTarball_github_ok (env : NetEnv) (url revision : Str)
    (b content : List Nat) (entry1 entry2 : Str) (entries : List Str)
    (hhost : (str "https://github.com/").isPrefixOf url = true)
    (hget : env.httpGet (githubDownloadURL url revision) = some b)
    (hgz : env.gunzip b = some content)
    (htar : env.tarEntryNames content = entry1 :: entry2 :: entries) :
    tryTarball env url revision =
      .ok { url := githubDownloadURL url revision,
            stripPrefix := entry2, sha256 := sha256Hex b } ∧
    githubDownloadURL url revision = url ++ str "/archive/" ++ revision ++ str ".tar.gz" := by
  refine ⟨by simp [tryTarball, hhost, githubTarball, hget, hgz, htar], ?_⟩
  simp [githubDownloadURL, List.append_assoc]

/-- Witness for C2: a concrete successful probe, whose checksum is the
digest of the three downloaded bytes and whose strip prefix is the
second tar entry. -/
theorem tryTarball_github_ok_witness :
    tryTarball envGhOk (str "https://github.com/pkg/errors") (str "abc123") =
      .ok { url := githubDownloadURL (str "https://github.com/pkg/errors") (str "abc123"),
            stripPrefix := str "errors-abc123/sub", sha256 := sha256Hex [97, 98, 99] } ∧
    githubDownloadURL (str "https://github.com/pkg/errors") (str "abc123") =
      str "https://github.com/pkg/errors" ++ str "/archive/" ++ str "abc123" ++ str ".tar.gz" :=
  tryTarball_github_ok envGhOk (str "https://github.com/pkg/errors") (str "abc123")
    [97, 98, 99] [] (str "errors-abc123") (str "errors-abc123/sub") []
    (by decide) rfl rfl rfl

/-- C6: for any URL carrying the go.googlesource.com prefix the probe
succeeds in every environment without consulting it (no download, no
content inspection), returning `<hostURL>/+archive/<revision>.tar.gz`
with empty strip prefix and empty checksum. -/
theorem tryTarball_googlesource (env env2 : NetEnv) (url revision : Str)
    (hhost : (str "https://go.googlesource.com/").isPrefixOf url = true) :
    tryTarball env url revision =
      .ok { url := url ++ str "/+archive/" ++ revision ++ str ".tar.gz",
            stripPrefix := [], sha256 := [] } ∧
    tryTarball env url revision = tryTarball env2 url revision := by
  obtain ⟨rest, hrest⟩ := List.isPrefixOf_iff_prefix.mp hhost
  obtain ⟨tail, rfl⟩ := hrest
  constructor <;>
    simp [tryTarball, gh_not_pre_gs, isPrefixOf_append_self, googlesourceTarball]

/-- Witness for C6: a concrete go.googlesource.com URL probed in the
all-failing environment still succeeds, with empty checksum. -/
theorem tryTarball_googlesource_witness :
    tryTarball envFail (str "https://go.googlesource.com/net") (str "abc") =
      .ok { url := str "https://go.googlesource.com/net" ++ str "/+archive/" ++
                     str "abc" ++ str ".tar.gz",
            stripPrefix := [], sha256 := [] } ∧
    tryTarball envFail (str "https://go.googlesource.com/net") (str "abc") =
      tryTarball envGhOk (str "https://go.googlesource.com/net") (str "abc") :=
  tryTarball_googlesource envFail envGhOk (str "https://go.googlesource.com/net") (str "abc")
    (by decide)

/-- C7: for any URL carrying neither the github prefix nor the
go.googlesource.com prefix, the probe fails immediately with the
unsupported-host error, independently of the environment (no network
access). -/
theorem tryTarball_unsupported (env env2 : NetEnv) (url revision : Str)
    (h1 : (str "https://github.com/").isPrefixOf url = false)
    (h2 : (str "https://go.googlesource.com/").isPrefixOf url = false) :
    tryTarball env url revision = .error .unsupportedHost ∧
    tryTarball env url revision = tryTarball env2 url revision := by
  constructor <;> simp [tryTarball, h1, h2]

/-- Witness for C7: a concrete unknown host fails with the
unsupported-host error. -/
theorem tryTarball_unsupported_witness :
    tryTarball envGhOk (str "https://example.com/x") (str "r") = .error .unsupportedHost ∧
    tryTarball envGhOk (str "https://example.com/x") (str "r") =
      tryTarball envFail (str "https://example.com/x") (str "r") :=
  tryTarball_unsupported envGhOk envFail (str "https://example.com/x") (str "r")
    (by decide) (by decide)

/-- C8: after the host check, a github-style probe fails with the fetch
error exactly when the HTTP request fails, fails with the
archive-format error exactly when decompression fails or the archive
holds fewer than two entries, and never fails with the
unsupported-host error. -/
theorem githubTarball_error_taxonomy (env : NetEnv) (url revision : Str) :
    (githubTarball env url revision = .error .fetchError ↔
      env.httpGet (githubDownloadURL url revision) = none) ∧
    (githubTarball env url revision = .error .archiveFormatError ↔
      ∃ b, env.httpGet (githubDownloadURL url revision) = some b ∧
        (env.gunzip b = none ∨
          ∃ content, env.gunzip b = some content ∧
            (env.tarEntryNames content).length < 2)) ∧
    githubTarball env url revision ≠ .error .unsupportedHost := by
  cases hb : env.httpGet (githubDownloadURL url revision) with
  | none => simp [githubTarball, hb]
  | some b =>
    cases hz : env.gunzip b with
    | none => simp [githubTarball, hb, hz]
    | some content =>
      cases ht : env.tarEntryNames content with
      | nil => simp [githubTarball, hb, hz, ht]
      | cons e1 t =>
        cases t with
        | nil => simp [githubTarball, hb, hz, ht]
        | cons e2 t2 => simp [githubTarball, hb, hz, ht]

/-- C5: rendering is total and produces exactly the spec's field order:
a tarball block renders name, importpath, a single-element urls list,
strip_prefix, sha256 exactly when the checksum is non-empty, then the
fixed disabled-proto-mode flag; a VCS block renders name, importpath,
commit (the stored revision), then the same flag, with no
urls/strip_prefix/sha256 fields. -/
theorem GetRepoString_field_order (r : RemoteRepository) (name importPath : Str) :
    r.GetRepoString name importPath =
      renderBlock (match r with
        | .tarball t => tarballFieldLines t name importPath
        | .gitRepo g => vcsFieldLines g name importPath) := by
  cases r with
  | tarball t =>
    by_cases h : t.sha256 = [] <;>
      simp only [RemoteRepository.GetRepoString, RemoteTarball.GetRepoString, renderBlock,
        tarballFieldLines, quotedField, listField, h, ne_eq, not_true_eq_false, if_false,
        not_false_eq_true, if_true, List.foldr_cons, List.foldr_nil, List.foldr_append,
        List.append_assoc, List.nil_append, List.append_nil] <;>
      rfl
  | gitRepo g =>
    simp only [RemoteRepository.GetRepoString, RemoteGitRepo.GetRepoString, renderBlock,
      vcsFieldLines, quotedField, List.foldr_cons, List.foldr_nil, List.append_assoc]
    rfl


